import Mathlib

/-!
Verification development for the aws-sigv4-proxy request pipeline.

The Go sources under handler/ are shallowly embedded as executable Lean
definitions: the Service Resolver (handler/aws.go), the Signing
Orchestrator (handler/proxy_client.go), the Admission Gate
(handler/ratelimiter.go) and the Response Relay (handler/handler.go).
External collaborators (the AWS signer, the HTTP transport, the token
bucket of golang.org/x/time/rate) are modelled as oracle parameters, and
side effects are made visible as explicit event traces.
-/

namespace AwsSigV4Proxy

/-- Signing metadata of a resolved endpoint; mirrors the fields of
`endpoints.ResolvedEndpoint` that handler/aws.go populates and
handler/proxy_client.go consumes. -/
structure ResolvedEndpoint where
  url : String
  signingMethod : String
  signingRegion : String
  signingName : String
  partitionID : String
deriving Repr, DecidableEq

/-- Character class of the capture groups `[a-zA-Z0-9_-]` used by
`apiGatewayRegex` and `elasticSearchRegex` in handler/aws.go. -/
def isHostLabelChar (c : Char) : Bool :=
  c.isAlphanum || c == '_' || c == '-'

/-- A nonempty run of pattern characters: one `[a-zA-Z0-9_-]+` group. -/
def isHostLabel (s : String) : Bool :=
  !s.toList.isEmpty && s.toList.all isHostLabelChar

/-- Splits a character list at every dot, keeping empty segments, exactly
as the anchored regexes decompose a host into dot-separated labels. -/
def splitDotAux : List Char → List (List Char)
  | [] => [[]]
  | c :: rest =>
    match splitDotAux rest with
    | h :: t => if c == '.' then [] :: h :: t else (c :: h) :: t
    | [] => [[]]

/-- Dot-separated labels of a host string. -/
def hostLabels (host : String) : List String :=
  (splitDotAux host.toList).map String.mk

/-- Matching of `apiGatewayRegex` from handler/aws.go:
an anchored match of `<id>.execute-api.<region>.amazonaws.com` where id and
region are nonempty `[a-zA-Z0-9_-]+` groups; returns the captured region.
The groups cannot contain dots, so the anchored regex match is exactly a
shape check on the dot-separated labels. -/
def apiGatewayMatch (host : String) : Option String :=
  match hostLabels host with
  | [idLabel, api, region, amz, com] =>
    if isHostLabel idLabel && api == "execute-api" && isHostLabel region &&
        amz == "amazonaws" && com == "com" then
      some region
    else
      none
  | _ => none

/-- Matching of `elasticSearchRegex` from handler/aws.go:
an anchored match of `<id>.<region>.es.amazonaws.com`; returns the captured
region. -/
def elasticSearchMatch (host : String) : Option String :=
  match hostLabels host with
  | [idLabel, region, es, amz, com] =>
    if isHostLabel idLabel && isHostLabel region && es == "es" &&
        amz == "amazonaws" && com == "com" then
      some region
    else
      none
  | _ => none

/-- The pattern-derived endpoint built for an API Gateway host
(handler/aws.go, first return of `determineAWSServiceFromHost`). -/
def apiGatewayEndpoint (host region : String) : ResolvedEndpoint :=
  { url := "https://" ++ host, signingMethod := "v4", signingRegion := region,
    signingName := "execute-api", partitionID := "aws" }

/-- The pattern-derived endpoint built for a managed-search host
(handler/aws.go, second return of `determineAWSServiceFromHost`). -/
def elasticSearchEndpoint (host region : String) : ResolvedEndpoint :=
  { url := "https://" ++ host, signingMethod := "v4", signingRegion := region,
    signingName := "es", partitionID := "aws" }

/-- Embedding of `determineAWSServiceFromHost` (handler/aws.go lines
42-71): the API Gateway pattern, then the managed-search pattern, then an
exact lookup in the static `services` table. The table, built in `init`
from the AWS SDK partition data, is passed as a lookup function. -/
def determineAWSServiceFromHost (services : String → Option ResolvedEndpoint)
    (host : String) : Option ResolvedEndpoint :=
  match apiGatewayMatch host with
  | some region => some (apiGatewayEndpoint host region)
  | none =>
    match elasticSearchMatch host with
    | some region => some (elasticSearchEndpoint host region)
    | none => services host

/-- Checks that the first list leads the second, character by character. -/
def charsLead : List Char → List Char → Bool
  | [], _ => true
  | _ :: _, [] => false
  | a :: as, b :: bs => a == b && charsLead as bs

/-- Embedding of `strings.HasSuffix s t`. -/
def strEndsWith (s t : String) : Bool :=
  charsLead t.toList.reverse s.toList.reverse

/-- The per-key match of the suffix-fallback resolver variant:
`host == endpoint || (endpoint != "" && strings.HasSuffix(host, "."+endpoint))`. -/
def suffixKeyMatches (host key : String) : Bool :=
  host == key || (key != "" && strEndsWith host ("." ++ key))

/-- Embedding of the suffix-fallback variant of
`determineAWSServiceFromHost` (handler/aws.go lines 224-231): a range loop
over the `services` map returning the first matching entry. The Go map
iteration is modelled by the order of an association list, since Go leaves
that order unspecified. -/
def determineAWSServiceFromHostSuffixVariant
    (table : List (String × ResolvedEndpoint)) (host : String) :
    Option ResolvedEndpoint :=
  (table.find? (fun e => suffixKeyMatches host e.1)).map Prod.snd

/-- Exact lookup in a table given as an association list: the Go map
`services` built from these entries. -/
def tableLookup (table : List (String × ResolvedEndpoint)) :
    String → Option ResolvedEndpoint :=
  fun host => (table.find? (fun e => e.1 == host)).map Prod.snd

/-- The resolver exactly as claim C1 describes it: the API Gateway
pattern, then the managed-search pattern, then an exact table lookup, then
a suffix fallback over non-empty table keys, and not-found otherwise.
Stated from the claim wording, to be compared with
`determineAWSServiceFromHost`. -/
def claimedResolveWithSuffixFallback
    (table : List (String × ResolvedEndpoint)) (host : String) :
    Option ResolvedEndpoint :=
  match apiGatewayMatch host with
  | some region => some (apiGatewayEndpoint host region)
  | none =>
    match elasticSearchMatch host with
    | some region => some (elasticSearchEndpoint host region)
    | none =>
      match table.find? (fun e => e.1 == host) with
      | some e => some e.2
      | none =>
        (table.find? (fun e => e.1 != "" && suffixKeyMatches host e.1)).map Prod.snd

/-- First-match-wins resolution over an ordered rule list, the shape in
which the specification states the resolution order. -/
def firstSome : List (String → Option ResolvedEndpoint) → String →
    Option ResolvedEndpoint
  | [], _ => none
  | r :: rs, host =>
    match r host with
    | some e => some e
    | none => firstSome rs host

/-- Resolution rule 1: the API Gateway pattern. -/
def apiGatewayRule (host : String) : Option ResolvedEndpoint :=
  (apiGatewayMatch host).map (apiGatewayEndpoint host)

/-- Resolution rule 2: the managed-search pattern. -/
def elasticSearchRule (host : String) : Option ResolvedEndpoint :=
  (elasticSearchMatch host).map (elasticSearchEndpoint host)

/-- Resolution rule 3: the static host table. -/
def staticTableRule (services : String → Option ResolvedEndpoint)
    (host : String) : Option ResolvedEndpoint :=
  services host

/-- A static-table entry for the plain object-storage host, as the SDK
partition data provides it. -/
def s3VirtualHostEndpoint : ResolvedEndpoint :=
  { url := "https://s3.amazonaws.com", signingMethod := "s3",
    signingRegion := "us-east-1", signingName := "s3", partitionID := "aws" }

/-- A one-entry static table whose key is a proper suffix of a
bucket-style virtual host. -/
def c1Table : List (String × ResolvedEndpoint) :=
  [("s3.amazonaws.com", s3VirtualHostEndpoint)]

/-- C1 counterexample: on the bucket-style host
`mybucket.s3.amazonaws.com`, the resolution procedure described by the
claim (with its suffix-fallback step) finds the `s3.amazonaws.com` table
entry, but `determineAWSServiceFromHost` as written (handler/aws.go lines
42-71) performs only an exact table lookup after the two patterns and
returns not-found: the claimed suffix-fallback step does not exist there. -/
theorem c1_resolution_order_counterexample :
    claimedResolveWithSuffixFallback c1Table "mybucket.s3.amazonaws.com" =
      some s3VirtualHostEndpoint ∧
    determineAWSServiceFromHost (tableLookup c1Table)
      "mybucket.s3.amazonaws.com" = none := by
  decide

/-- C1 (amended): for every host, `determineAWSServiceFromHost` follows
the fixed first-match order API Gateway pattern, managed-search pattern,
exact static-table lookup, and not-found otherwise (no suffix fallback);
in particular, whenever either pattern matches, the result is the
pattern-derived endpoint and is independent of the static table, so a
pattern-derived endpoint is always preferred over any static table entry
for the same host. -/
theorem c1_resolution_order_amended (services : String → Option ResolvedEndpoint)
    (host : String) :
    determineAWSServiceFromHost services host =
      firstSome [apiGatewayRule, elasticSearchRule, staticTableRule services] host ∧
    ((apiGatewayMatch host).isSome ∨ (elasticSearchMatch host).isSome →
      ∀ s₁ s₂ : String → Option ResolvedEndpoint,
        determineAWSServiceFromHost s₁ host = determineAWSServiceFromHost s₂ host) := by
  constructor
  · cases h1 : apiGatewayMatch host <;> cases h2 : elasticSearchMatch host <;>
      cases h3 : services host <;>
      simp [determineAWSServiceFromHost, firstSome, apiGatewayRule,
        elasticSearchRule, staticTableRule, h1, h2, h3]
  · intro hpat s₁ s₂
    unfold determineAWSServiceFromHost
    cases hag : apiGatewayMatch host with
    | some region => rfl
    | none =>
      cases hes : elasticSearchMatch host with
      | some region => rfl
      | none =>
        rcases hpat with h | h
        · rw [hag] at h; cases h
        · rw [hes] at h; cases h

/-- C1 amended, witnessed at a concrete API Gateway host with a
conflicting static-table entry: the pattern wins. -/
theorem c1_resolution_order_amended_witness :
    determineAWSServiceFromHost
        (fun _ => some s3VirtualHostEndpoint)
        "abc123.execute-api.us-west-2.amazonaws.com" =
      determineAWSServiceFromHost (fun _ => none)
        "abc123.execute-api.us-west-2.amazonaws.com" :=
  (c1_resolution_order_amended (fun _ => some s3VirtualHostEndpoint)
      "abc123.execute-api.us-west-2.amazonaws.com").2
    (Or.inl (by decide)) _ _

/-- Endpoint returned for the shorter key in the C10 counterexample. -/
def c10EndpointA : ResolvedEndpoint :=
  { url := "https://amazonaws.com", signingMethod := "v4",
    signingRegion := "us-east-1", signingName := "svca", partitionID := "aws" }

/-- Endpoint returned for the longer key in the C10 counterexample. -/
def c10EndpointB : ResolvedEndpoint :=
  { url := "https://s3.amazonaws.com", signingMethod := "v4",
    signingRegion := "us-east-1", signingName := "svcb", partitionID := "aws" }

/-- A two-entry table in one iteration order. -/
def c10TableAB : List (String × ResolvedEndpoint) :=
  [("amazonaws.com", c10EndpointA), ("s3.amazonaws.com", c10EndpointB)]

/-- The same two-entry table in the other iteration order. -/
def c10TableBA : List (String × ResolvedEndpoint) :=
  [("s3.amazonaws.com", c10EndpointB), ("amazonaws.com", c10EndpointA)]

/-- C10 counterexample: the host `bucket.s3.amazonaws.com` matches both
keys of the table, and the suffix-fallback resolver of handler/aws.go
(lines 224-231) returns whichever matching entry its map iteration visits
first: the two iteration orders of the same table give different
endpoints, so the result does depend on the iteration order. -/
theorem c10_determinism_counterexample :
    c10TableAB.Perm c10TableBA ∧
    determineAWSServiceFromHostSuffixVariant c10TableAB "bucket.s3.amazonaws.com" ≠
      determineAWSServiceFromHostSuffixVariant c10TableBA "bucket.s3.amazonaws.com" := by
  refine ⟨?_, by decide⟩
  exact List.Perm.swap _ _ _

/-- C10 (amended): the suffix-fallback resolver is insensitive to the
table iteration order whenever at most one table entry matches the host;
with several matching keys it returns the entry the iteration visits
first. -/
theorem c10_determinism_amended (t₁ t₂ : List (String × ResolvedEndpoint))
    (host : String) (hperm : t₁.Perm t₂)
    (huniq : ∀ p ∈ t₁, ∀ q ∈ t₁, suffixKeyMatches host p.1 = true →
      suffixKeyMatches host q.1 = true → p = q) :
    determineAWSServiceFromHostSuffixVariant t₁ host =
      determineAWSServiceFromHostSuffixVariant t₂ host := by
  unfold determineAWSServiceFromHostSuffixVariant
  cases h₁ : t₁.find? (fun e => suffixKeyMatches host e.1) with
  | none =>
    cases h₂ : t₂.find? (fun e => suffixKeyMatches host e.1) with
    | none => rfl
    | some q =>
      have hq := List.find?_some h₂
      have hqmem : q ∈ t₁ := hperm.mem_iff.mpr (List.mem_of_find?_eq_some h₂)
      have := List.find?_eq_none.mp h₁ q hqmem
      simp only [hq] at this
      exact (this trivial).elim
  | some p =>
    cases h₂ : t₂.find? (fun e => suffixKeyMatches host e.1) with
    | none =>
      have hp := List.find?_some h₁
      have hpmem : p ∈ t₂ := hperm.mem_iff.mp (List.mem_of_find?_eq_some h₁)
      have := List.find?_eq_none.mp h₂ p hpmem
      simp only [hp] at this
      exact (this trivial).elim
    | some q =>
      have hp := List.find?_some h₁
      have hq := List.find?_some h₂
      have hpmem : p ∈ t₁ := List.mem_of_find?_eq_some h₁
      have hqmem : q ∈ t₁ := hperm.mem_iff.mpr (List.mem_of_find?_eq_some h₂)
      rw [huniq p hpmem q hqmem hp hq]

/-- C10 amended, witnessed on a singleton table against itself. -/
theorem c10_determinism_amended_witness :
    determineAWSServiceFromHostSuffixVariant c1Table "mybucket.s3.amazonaws.com" =
      determineAWSServiceFromHostSuffixVariant c1Table "mybucket.s3.amazonaws.com" :=
  c10_determinism_amended c1Table c1Table "mybucket.s3.amazonaws.com"
    (List.Perm.refl _) (by decide)

/-- Read errors surfaced by a body reader: end of stream, or a failure
with a message. -/
inductive RdErr
  | eof
  | fail (msg : String)
deriving Repr, DecidableEq

/-- The parts of a URL the orchestrator manipulates: scheme and host are
rewritten, path and the remaining part (query) pass through; presigning
mutates the remaining part. -/
structure URL where
  scheme : String
  host : String
  path : String
  rest : String
deriving Repr, DecidableEq

/-- Header multi-map; keys are modelled already in the canonical MIME
form in which Go's http.Header stores them. -/
abbrev Header := List (String × List String)

deriving instance DecidableEq for Except

/-- An HTTP request as the orchestrator sees it: the body is a reading
outcome (absent, readable bytes, or a read failure), content length uses
the Go convention of a negative sentinel for unknown. -/
structure Request where
  method : String
  url : URL
  host : String
  header : Header
  body : Option (Except String String)
  transferEncoding : List String
  contentLength : Int
deriving Repr, DecidableEq

/-- An HTTP response; the body is the stream of read results the relay
will observe: data plus an optional terminal condition. -/
structure Response where
  statusCode : Int
  header : Header
  transferEncoding : List String
  contentLength : Int
  body : List (String × Option RdErr)
deriving Repr, DecidableEq

/-- Embedding of http.Header.Get: first value of the key, empty string if
absent. -/
def headerGet (h : Header) (k : String) : String :=
  match h.find? (fun e => e.1 == k) with
  | some (_, v :: _) => v
  | _ => ""

/-- Embedding of http.Header.Del. -/
def headerDel (h : Header) (k : String) : Header :=
  h.filter (fun e => e.1 != k)

/-- Embedding of http.Header.Set: replace the entry by a single value. -/
def headerSet (h : Header) (k v : String) : Header :=
  headerDel h k ++ [(k, [v])]

/-- Embedding of copyHeaderWithoutOverwrite (proxy_client.go lines
96-104): add each source entry whose key is absent from the destination. -/
def copyHeaderWithoutOverwrite (dst src : Header) : Header :=
  src.foldl
    (fun d e => if (d.find? (fun x => x.1 == e.1)).isSome then d else d ++ [e])
    dst

/-- Embedding of `chunked` (proxy_client.go lines 115-123): any
transfer-encoding value other than identity means chunked framing. -/
def chunked (transferEncoding : List String) : Bool :=
  transferEncoding.any (fun v => v != "identity")

/-- Embedding of readDownStreamRequestBody (proxy_client.go lines
125-131): nil body reads as empty, otherwise the body's reading outcome. -/
def readDownStreamRequestBody (req : Request) : Except String String :=
  match req.body with
  | none => Except.ok ""
  | some r => r

/-- Parameters of the external golang.org/x/time/rate token bucket; its
admission decisions are supplied by an oracle. -/
structure TokenBucket where
  rps : Rat
  burst : Int
deriving Repr, DecidableEq

/-- Embedding of the RateLimiter struct (ratelimiter.go): an optional
token bucket. -/
structure RateLimiter where
  limiter : Option TokenBucket
deriving Repr, DecidableEq

/-- Embedding of NewRateLimiter (ratelimiter.go): a bucket is created
only for a positive requests-per-second rate. -/
def NewRateLimiter (rps : Rat) (burst : Int) : RateLimiter :=
  if rps > 0 then { limiter := some { rps := rps, burst := burst } }
  else { limiter := none }

/-- Embedding of RateLimiter.Allow (ratelimiter.go): a nil limiter always
allows; otherwise the external bucket decides through the oracle. -/
def RateLimiter.AllowWith (r : RateLimiter) (bucketAllows : TokenBucket → Bool) :
    Bool :=
  match r.limiter with
  | none => true
  | some l => bucketAllows l

/-- Configuration of the Signing Orchestrator (the ProxyClient struct of
proxy_client.go); the external signer and transport collaborators are
passed to Do as oracles. -/
structure ProxyClient where
  stripRequestHeaders : List String
  customHeaders : Header
  duplicateRequestHeaders : List String
  signingNameOverride : String
  signingHostOverride : String
  hostOverride : String
  regionOverride : String
  logFailedRequest : Bool
  schemeOverride : String
  rateLimiter : Option RateLimiter

/-- Observable side effects of one Do invocation, in order: the inbound
body materialization, the resolver consultation, the external signing
calls (with the escaping flag they observe), and the transport dispatch
(with the outbound request it receives). -/
inductive Event
  | bodyRead
  | resolveHost (host : String)
  | signCall (service : ResolvedEndpoint) (escapingDisabled : Bool)
  | presignCall (service : ResolvedEndpoint) (escapingDisabled : Bool)
  | transportCall (req : Request)
deriving Repr, DecidableEq

/-- Embedding of ProxyClient.sign (proxy_client.go lines 53-94). The
signer state is its DisableURIPathEscaping flag, threaded explicitly.
The external Sign and Presign calls are oracles that receive the flag
value they observe and return the mutation they perform: Sign returns the
new header set, Presign the new URL query part. The result is the signed
request or the error, the flag after the deferred restore, and the trace
of external signing calls. -/
def ProxyClient.sign (flagIn : Bool)
    (signOracle : Request → ResolvedEndpoint → Bool → Except String Header)
    (presignOracle : Request → ResolvedEndpoint → Bool → Except String String)
    (req : Request) (service : ResolvedEndpoint) :
    Except String Request × Bool × List Event :=
  match req.body with
  | some (Except.error e) => (Except.error e, flagIn, [])
  | _ =>
    let flagDuring := if service.signingName == "s3" then true else flagIn
    let flagOut := if service.signingName == "s3" then false else flagIn
    match service.signingMethod with
    | "v4" | "s3v4" =>
      ((match signOracle req service flagDuring with
        | Except.ok hdr => Except.ok { req with header := hdr }
        | Except.error e => Except.error e),
       flagOut, [Event.signCall service flagDuring])
    | "s3" =>
      ((match presignOracle req service flagDuring with
        | Except.ok q => Except.ok { req with url := { req.url with rest := q } }
        | Except.error e => Except.error e),
       flagOut, [Event.presignCall service flagDuring])
    | m =>
      (Except.error ("unable to sign with specified signing method " ++ m ++
          " for service " ++ service.signingName), flagOut, [])

/-- The admission guard of Do (proxy_client.go line 135):
`p.RateLimiter != nil && !p.RateLimiter.Allow()`. -/
def rateLimitDenied (p : ProxyClient) (bucketAllows : TokenBucket → Bool) :
    Bool :=
  match p.rateLimiter with
  | none => false
  | some rl => !(rl.AllowWith bucketAllows)

/-- Both members of the override pair are configured (proxy_client.go
line 184). -/
def bothOverrides (p : ProxyClient) : Bool :=
  p.signingNameOverride != "" && p.regionOverride != ""

/-- The scheme of the rewritten proxy URL (proxy_client.go lines 146-149). -/
def proxySchemeOf (p : ProxyClient) : String :=
  if p.schemeOverride != "" then p.schemeOverride else "https"

/-- The host of the rewritten proxy URL (proxy_client.go lines 140-145). -/
def proxyHostOf (p : ProxyClient) (req : Request) : String :=
  if p.hostOverride != "" then p.hostOverride else req.host

/-- The endpoint synthesized from the override pair (proxy_client.go line
185); the partition is the zero value. -/
def overrideEndpoint (p : ProxyClient) (req : Request) : ResolvedEndpoint :=
  { url := proxySchemeOf p ++ "://" ++ proxyHostOf p req,
    signingMethod := "v4", signingRegion := p.regionOverride,
    signingName := p.signingNameOverride, partitionID := "" }

/-- Draining read of a response body that ignores a terminal error, as
`b, _ := io.ReadAll(resp.Body)` does in the failed-request logging path. -/
def drainStream : List (String × Option RdErr) → String
  | [] => ""
  | (d, none) :: rest => d ++ drainStream rest
  | (d, some _) :: _ => d

/-- Result of one Do invocation: the returned response or error, the
signer escaping flag afterwards, and the side-effect trace. -/
structure DoOutcome where
  result : Except String Response
  signerFlag : Bool
  events : List Event
deriving Repr, DecidableEq

/-- Embedding of ProxyClient.Do (proxy_client.go lines 133-265): the
admission check, the proxy URL rewrite, the body materialization, the
outbound request construction with its content-length rule, the service
resolution (override pair or host-based resolver), signing, the
transfer-encoding fixup, header stripping, duplication and no-overwrite
merging, and the transport dispatch with the failed-request body
restore. Debug request dumps are logging only and are not modelled. -/
def ProxyClient.Do (p : ProxyClient) (debugLevel : Bool)
    (bucketAllows : TokenBucket → Bool)
    (services : String → Option ResolvedEndpoint)
    (signOracle : Request → ResolvedEndpoint → Bool → Except String Header)
    (presignOracle : Request → ResolvedEndpoint → Bool → Except String String)
    (transport : Request → Except String Response)
    (flagIn : Bool) (req : Request) : DoOutcome :=
  if rateLimitDenied p bucketAllows then
    { result := Except.error "rate limit exceeded", signerFlag := flagIn,
      events := [] }
  else
    let proxyURL : URL :=
      { scheme := proxySchemeOf p, host := proxyHostOf p req,
        path := req.url.path, rest := req.url.rest }
    match readDownStreamRequestBody req with
    | Except.error e =>
      { result := Except.error e, signerFlag := flagIn,
        events := [Event.bodyRead] }
    | Except.ok proxyReqBody =>
      let proxyReq0 : Request :=
        { method := req.method, url := proxyURL, host := "",
          header := [], body := some (Except.ok proxyReqBody),
          transferEncoding := [],
          contentLength := (proxyReqBody.length : Int) }
      let reqChunked := chunked req.transferEncoding
      let proxyReq1 :=
        if !reqChunked && req.contentLength >= 0 then
          { proxyReq0 with contentLength := req.contentLength }
        else proxyReq0
      let proxyReq2 :=
        if p.signingHostOverride != "" then
          { proxyReq1 with host := p.signingHostOverride }
        else proxyReq1
      let resolved : Option ResolvedEndpoint × List Event :=
        if bothOverrides p then (some (overrideEndpoint p req), [])
        else (determineAWSServiceFromHost services req.host,
          [Event.resolveHost req.host])
      match resolved.1 with
      | none =>
        { result := Except.error
            ("unable to determine service from host: " ++ req.host),
          signerFlag := flagIn,
          events := [Event.bodyRead] ++ resolved.2 }
      | some service =>
        match ProxyClient.sign flagIn signOracle presignOracle proxyReq2 service with
        | (Except.error e, flagOut, signEvents) =>
          { result := Except.error e, signerFlag := flagOut,
            events := [Event.bodyRead] ++ resolved.2 ++ signEvents }
        | (Except.ok signedReq, flagOut, signEvents) =>
          let proxyReq3 :=
            if !reqChunked then
              { signedReq with transferEncoding := ["identity"] }
            else
              { signedReq with transferEncoding := req.transferEncoding }
          let strippedHeader :=
            p.stripRequestHeaders.foldl (fun h k => headerDel h k) req.header
          let dupHeader :=
            p.duplicateRequestHeaders.foldl
              (fun h hn =>
                let v := headerGet strippedHeader hn
                if v == "" then h
                else headerSet h ("X-Original-" ++ hn) v)
              proxyReq3.header
          let mergedHeader := copyHeaderWithoutOverwrite dupHeader strippedHeader
          let finalHeader := copyHeaderWithoutOverwrite mergedHeader p.customHeaders
          let finalReq := { proxyReq3 with header := finalHeader }
          let respResult : Except String Response :=
            match transport finalReq with
            | Except.error e => Except.error e
            | Except.ok resp =>
              Except.ok
                (if (p.logFailedRequest || debugLevel) && resp.statusCode >= 400
                 then { resp with body := [(drainStream resp.body, none)] }
                 else resp)
          { result := respResult, signerFlag := flagOut,
            events := [Event.bodyRead] ++ resolved.2 ++ signEvents ++
              [Event.transportCall finalReq] }

/-- C4: for a signing invocation with signingName s3 (starting from the
escaping-enabled state the signer is otherwise always left in), the
escaping-disabled flag is observed as set by the external signing call
and is back to false on every exit path, success or failure; for any
other signingName the flag is never modified and any external signing
call observes the unchanged incoming flag. -/
theorem c4_s3_escaping_scope (flagIn : Bool)
    (signOracle : Request → ResolvedEndpoint → Bool → Except String Header)
    (presignOracle : Request → ResolvedEndpoint → Bool → Except String String)
    (req : Request) (service : ResolvedEndpoint) :
    (service.signingName = "s3" → flagIn = false →
      (ProxyClient.sign flagIn signOracle presignOracle req service).2.1 = false ∧
      ∀ s d,
        (Event.signCall s d ∈
            (ProxyClient.sign flagIn signOracle presignOracle req service).2.2 ∨
         Event.presignCall s d ∈
            (ProxyClient.sign flagIn signOracle presignOracle req service).2.2) →
        d = true) ∧
    (service.signingName ≠ "s3" →
      (ProxyClient.sign flagIn signOracle presignOracle req service).2.1 = flagIn ∧
      ∀ s d,
        (Event.signCall s d ∈
            (ProxyClient.sign flagIn signOracle presignOracle req service).2.2 ∨
         Event.presignCall s d ∈
            (ProxyClient.sign flagIn signOracle presignOracle req service).2.2) →
        d = flagIn) := by
  constructor
  · intro hname hflag
    constructor
    · unfold ProxyClient.sign
      repeat' split
      all_goals first
      | rfl
      | simp_all
    · intro s d hd
      unfold ProxyClient.sign at hd
      revert hd
      repeat' split
      all_goals first
      | rfl
      | simp_all
  · intro hname
    have hbeq : (service.signingName == "s3") = false :=
      beq_eq_false_iff_ne.mpr hname
    constructor
    · unfold ProxyClient.sign
      repeat' split
      all_goals first
      | rfl
      | simp_all
    · intro s d hd
      unfold ProxyClient.sign at hd
      revert hd
      repeat' split
      all_goals first
      | rfl
      | simp_all

/-- A minimal URL for concrete runs. -/
def sampleURL : URL :=
  { scheme := "https", host := "example.com", path := "/", rest := "" }

/-- A minimal request for concrete runs. -/
def sampleRequest : Request :=
  { method := "GET", url := sampleURL, host := "example.com", header := [],
    body := none, transferEncoding := [], contentLength := 0 }

/-- A signer oracle that succeeds and keeps the headers unchanged. -/
def okSignOracle : Request → ResolvedEndpoint → Bool → Except String Header :=
  fun r _ _ => Except.ok r.header

/-- A presigner oracle that succeeds and keeps the query unchanged. -/
def okPresignOracle : Request → ResolvedEndpoint → Bool → Except String String :=
  fun r _ _ => Except.ok r.url.rest

/-- A transport oracle that returns an empty 200 response. -/
def okTransport : Request → Except String Response :=
  fun _ => Except.ok
    { statusCode := 200, header := [], transferEncoding := [],
      contentLength := 0, body := [] }

/-- C4 witnessed: a presign invocation for signingName s3 leaves the flag
restored to false, and a v4 invocation for another service leaves a true
incoming flag untouched. -/
theorem c4_s3_escaping_scope_witness :
    (ProxyClient.sign false okSignOracle okPresignOracle sampleRequest
        s3VirtualHostEndpoint).2.1 = false ∧
    (ProxyClient.sign true okSignOracle okPresignOracle sampleRequest
        (apiGatewayEndpoint "h" "r")).2.1 = true :=
  ⟨((c4_s3_escaping_scope false okSignOracle okPresignOracle sampleRequest
        s3VirtualHostEndpoint).1 rfl rfl).1,
   ((c4_s3_escaping_scope true okSignOracle okPresignOracle sampleRequest
        (apiGatewayEndpoint "h" "r")).2 (by decide)).1⟩

/-- C5: a gate configured with a nonpositive requests-per-second rate has
no bucket and always allows; and a denied request makes Do return exactly
the rate-limit error with an empty side-effect trace, before body
materialization, resolution, signing or transport, and with the signer
state untouched. -/
theorem c5_rate_limit_gate :
    (∀ (rps : Rat) (burst : Int), rps ≤ 0 →
      ∀ bucketAllows : TokenBucket → Bool,
        (NewRateLimiter rps burst).AllowWith bucketAllows = true) ∧
    (∀ (p : ProxyClient) (debugLevel : Bool) (bucketAllows : TokenBucket → Bool)
        (services : String → Option ResolvedEndpoint)
        (signOracle : Request → ResolvedEndpoint → Bool → Except String Header)
        (presignOracle : Request → ResolvedEndpoint → Bool → Except String String)
        (transport : Request → Except String Response)
        (flagIn : Bool) (req : Request) (rl : RateLimiter),
      p.rateLimiter = some rl → rl.AllowWith bucketAllows = false →
      ProxyClient.Do p debugLevel bucketAllows services signOracle presignOracle
          transport flagIn req =
        { result := Except.error "rate limit exceeded", signerFlag := flagIn,
          events := [] }) := by
  constructor
  · intro rps burst hle bucketAllows
    have hnot : ¬ rps > 0 := not_lt.mpr hle
    unfold NewRateLimiter RateLimiter.AllowWith
    simp [hnot]
  · intro p dbg f services so po tr flag req rl hrl hallow
    unfold ProxyClient.Do rateLimitDenied
    rw [hrl]
    simp [hallow]

/-- A bucket for the C5 witness. -/
def sampleBucket : TokenBucket := { rps := 1, burst := 1 }

/-- A client whose gate holds a bucket, for the C5 witness. -/
def limitedClient : ProxyClient :=
  { stripRequestHeaders := [], customHeaders := [],
    duplicateRequestHeaders := [], signingNameOverride := "",
    signingHostOverride := "", hostOverride := "", regionOverride := "",
    logFailedRequest := false, schemeOverride := "",
    rateLimiter := some { limiter := some sampleBucket } }

/-- C5 witnessed: the zero-rate gate allows against an always-denying
bucket oracle, and a concrete denied request yields exactly the
rate-limit error and no events. -/
theorem c5_rate_limit_gate_witness :
    (NewRateLimiter 0 5).AllowWith (fun _ => false) = true ∧
    ProxyClient.Do limitedClient false (fun _ => false) (fun _ => none)
        okSignOracle okPresignOracle okTransport false sampleRequest =
      { result := Except.error "rate limit exceeded", signerFlag := false,
        events := [] } :=
  ⟨c5_rate_limit_gate.1 0 5 le_rfl _,
   c5_rate_limit_gate.2 limitedClient false _ _ _ _ _ false sampleRequest
     { limiter := some sampleBucket } rfl rfl⟩

/-- Discriminator for resolver-consultation events. -/
def isResolveEvent : Event → Bool
  | Event.resolveHost _ => true
  | _ => false

/-- The content lengths of the outbound requests handed to the transport
during one Do invocation. -/
def outboundContentLengths (o : DoOutcome) : List Int :=
  o.events.filterMap fun e =>
    match e with
    | Event.transportCall r => some r.contentLength
    | _ => none

/-- The materialized inbound body, as Do buffers it. -/
def materializedBody (req : Request) : String :=
  match readDownStreamRequestBody req with
  | Except.ok b => b
  | Except.error _ => ""

/-- The sign step emits no resolver events. -/
theorem sign_events_not_resolve (flagIn : Bool)
    (so : Request → ResolvedEndpoint → Bool → Except String Header)
    (po : Request → ResolvedEndpoint → Bool → Except String String)
    (req : Request) (service : ResolvedEndpoint) :
    ∀ h, Event.resolveHost h ∉ (ProxyClient.sign flagIn so po req service).2.2 := by
  intro h hmem
  unfold ProxyClient.sign at hmem
  revert hmem
  repeat' split
  all_goals simp

/-- The sign step emits no transport events. -/
theorem sign_events_not_transport (flagIn : Bool)
    (so : Request → ResolvedEndpoint → Bool → Except String Header)
    (po : Request → ResolvedEndpoint → Bool → Except String String)
    (req : Request) (service : ResolvedEndpoint) :
    ∀ r, Event.transportCall r ∉ (ProxyClient.sign flagIn so po req service).2.2 := by
  intro r hmem
  unfold ProxyClient.sign at hmem
  revert hmem
  repeat' split
  all_goals simp

/-- Every signing-call event of the sign step carries the service it was
invoked for. -/
theorem sign_events_service (flagIn : Bool)
    (so : Request → ResolvedEndpoint → Bool → Except String Header)
    (po : Request → ResolvedEndpoint → Bool → Except String String)
    (req : Request) (service : ResolvedEndpoint) :
    ∀ s d,
      (Event.signCall s d ∈ (ProxyClient.sign flagIn so po req service).2.2 ∨
       Event.presignCall s d ∈ (ProxyClient.sign flagIn so po req service).2.2) →
      s = service := by
  intro s d hmem
  unfold ProxyClient.sign at hmem
  revert hmem
  repeat' split
  all_goals simp_all

/-- A successfully signed request differs from its input only in headers
and URL query: transfer encoding and content length are untouched. -/
theorem sign_ok_fields (flagIn : Bool)
    (so : Request → ResolvedEndpoint → Bool → Except String Header)
    (po : Request → ResolvedEndpoint → Bool → Except String String)
    (req : Request) (service : ResolvedEndpoint) (r' : Request) (fo : Bool)
    (ev : List Event)
    (h : ProxyClient.sign flagIn so po req service = (Except.ok r', fo, ev)) :
    r'.contentLength = req.contentLength ∧
    r'.transferEncoding = req.transferEncoding := by
  unfold ProxyClient.sign at h
  repeat' split at h
  all_goals simp_all [Prod.ext_iff]
  all_goals obtain ⟨h1, h2, h3⟩ := h
  all_goals split at h1
  all_goals simp_all
  all_goals subst h1
  all_goals simp

/-- The resolver-event filter of the sign trace is empty. -/
theorem sign_events_filter_resolve (flagIn : Bool)
    (so : Request → ResolvedEndpoint → Bool → Except String Header)
    (po : Request → ResolvedEndpoint → Bool → Except String String)
    (req : Request) (service : ResolvedEndpoint) :
    ((ProxyClient.sign flagIn so po req service).2.2).filter isResolveEvent = [] := by
  unfold ProxyClient.sign
  repeat' split
  all_goals simp [isResolveEvent]

/-- Transfer of `sign_events_not_resolve` along a sign-result equation. -/
theorem mem_sign_events_resolve_eq {flagIn : Bool}
    {so : Request → ResolvedEndpoint → Bool → Except String Header}
    {po : Request → ResolvedEndpoint → Bool → Except String String}
    {req : Request} {service : ResolvedEndpoint}
    {x : Except String Request} {fo : Bool} {ev : List Event}
    (heq : ProxyClient.sign flagIn so po req service = (x, fo, ev)) :
    ∀ h, Event.resolveHost h ∉ ev := by
  intro h hmem
  have hse := congrArg (fun t => t.2.2) heq
  simp only at hse
  rw [← hse] at hmem
  exact sign_events_not_resolve _ _ _ _ _ h hmem

/-- Transfer of `sign_events_not_transport` along a sign-result equation. -/
theorem mem_sign_events_transport_eq {flagIn : Bool}
    {so : Request → ResolvedEndpoint → Bool → Except String Header}
    {po : Request → ResolvedEndpoint → Bool → Except String String}
    {req : Request} {service : ResolvedEndpoint}
    {x : Except String Request} {fo : Bool} {ev : List Event}
    (heq : ProxyClient.sign flagIn so po req service = (x, fo, ev)) :
    ∀ r, Event.transportCall r ∉ ev := by
  intro r hmem
  have hse := congrArg (fun t => t.2.2) heq
  simp only at hse
  rw [← hse] at hmem
  exact sign_events_not_transport _ _ _ _ _ r hmem

/-- Transfer of `sign_events_service` along a sign-result equation. -/
theorem mem_sign_events_service_eq {flagIn : Bool}
    {so : Request → ResolvedEndpoint → Bool → Except String Header}
    {po : Request → ResolvedEndpoint → Bool → Except String String}
    {req : Request} {service : ResolvedEndpoint}
    {x : Except String Request} {fo : Bool} {ev : List Event}
    (heq : ProxyClient.sign flagIn so po req service = (x, fo, ev)) :
    ∀ s d, (Event.signCall s d ∈ ev ∨ Event.presignCall s d ∈ ev) →
      s = service := by
  intro s d hmem
  have hse := congrArg (fun t => t.2.2) heq
  simp only at hse
  rw [← hse] at hmem
  exact sign_events_service _ _ _ _ _ s d hmem

/-- Transfer of `sign_events_filter_resolve` along a sign-result equation. -/
theorem sign_events_filter_resolve_eq {flagIn : Bool}
    {so : Request → ResolvedEndpoint → Bool → Except String Header}
    {po : Request → ResolvedEndpoint → Bool → Except String String}
    {req : Request} {service : ResolvedEndpoint}
    {x : Except String Request} {fo : Bool} {ev : List Event}
    (heq : ProxyClient.sign flagIn so po req service = (x, fo, ev)) :
    ev.filter isResolveEvent = [] := by
  have h := congrArg (fun t => (t.2.2).filter isResolveEvent) heq
  simp only at h
  rw [sign_events_filter_resolve] at h
  exact h.symm

/-- C6: with the gate passing, the inbound body materialized, no complete
override pair and a host the resolver cannot place, Do returns exactly
the unresolved-service error with the original inbound host interpolated,
and the transport collaborator is never invoked. -/
theorem c6_unresolved_service (p : ProxyClient) (debugLevel : Bool)
    (bucketAllows : TokenBucket → Bool)
    (services : String → Option ResolvedEndpoint)
    (signOracle : Request → ResolvedEndpoint → Bool → Except String Header)
    (presignOracle : Request → ResolvedEndpoint → Bool → Except String String)
    (transport : Request → Except String Response)
    (flagIn : Bool) (req : Request) (b : String)
    (hden : rateLimitDenied p bucketAllows = false)
    (hb : readDownStreamRequestBody req = Except.ok b)
    (hboth : bothOverrides p = false)
    (hres : determineAWSServiceFromHost services req.host = none) :
    (ProxyClient.Do p debugLevel bucketAllows services signOracle presignOracle
        transport flagIn req).result =
      Except.error ("unable to determine service from host: " ++ req.host) ∧
    ∀ r, Event.transportCall r ∉
      (ProxyClient.Do p debugLevel bucketAllows services signOracle presignOracle
        transport flagIn req).events := by
  unfold ProxyClient.Do
  simp [hden, hb, hboth, hres]

/-- A client with no overrides and no gate. -/
def plainClient : ProxyClient :=
  { stripRequestHeaders := [], customHeaders := [],
    duplicateRequestHeaders := [], signingNameOverride := "",
    signingHostOverride := "", hostOverride := "", regionOverride := "",
    logFailedRequest := false, schemeOverride := "", rateLimiter := none }

/-- The unresolvable request of spec scenario B. -/
def badHostRequest : Request :=
  { method := "GET", url := sampleURL, host := "badservice.host", header := [],
    body := none, transferEncoding := [], contentLength := 0 }

/-- C6 witnessed on the host badservice.host against an empty table. -/
theorem c6_unresolved_service_witness :
    (ProxyClient.Do plainClient false (fun _ => true) (fun _ => none)
        okSignOracle okPresignOracle okTransport false badHostRequest).result =
      Except.error ("unable to determine service from host: " ++ badHostRequest.host) ∧
    ∀ r, Event.transportCall r ∉
      (ProxyClient.Do plainClient false (fun _ => true) (fun _ => none)
        okSignOracle okPresignOracle okTransport false badHostRequest).events :=
  c6_unresolved_service plainClient false (fun _ => true) (fun _ => none)
    okSignOracle okPresignOracle okTransport false badHostRequest ""
    rfl rfl rfl (by decide)

/-- C2: when both the signing-name override and the region override are
configured, Do is independent of the resolver table, consults the
resolver on no host at all, and every external signing call uses the
endpoint synthesized from the two overrides (signing method v4);
otherwise, once the request passes admission and body materialization, Do
consults the resolver exactly once, on the original inbound Host header
and not on the rewritten proxy host. -/
theorem c2_override_bypass (p : ProxyClient) (debugLevel : Bool)
    (bucketAllows : TokenBucket → Bool)
    (signOracle : Request → ResolvedEndpoint → Bool → Except String Header)
    (presignOracle : Request → ResolvedEndpoint → Bool → Except String String)
    (transport : Request → Except String Response)
    (flagIn : Bool) (req : Request) :
    (p.signingNameOverride ≠ "" → p.regionOverride ≠ "" →
      (∀ s₁ s₂ : String → Option ResolvedEndpoint,
        ProxyClient.Do p debugLevel bucketAllows s₁ signOracle presignOracle
          transport flagIn req =
        ProxyClient.Do p debugLevel bucketAllows s₂ signOracle presignOracle
          transport flagIn req) ∧
      (∀ (services : String → Option ResolvedEndpoint) (h : String),
        Event.resolveHost h ∉
          (ProxyClient.Do p debugLevel bucketAllows services signOracle
            presignOracle transport flagIn req).events) ∧
      (∀ (services : String → Option ResolvedEndpoint)
          (s : ResolvedEndpoint) (d : Bool),
        (Event.signCall s d ∈
            (ProxyClient.Do p debugLevel bucketAllows services signOracle
              presignOracle transport flagIn req).events ∨
         Event.presignCall s d ∈
            (ProxyClient.Do p debugLevel bucketAllows services signOracle
              presignOracle transport flagIn req).events) →
        s = overrideEndpoint p req)) ∧
    (¬(p.signingNameOverride ≠ "" ∧ p.regionOverride ≠ "") →
      ∀ (services : String → Option ResolvedEndpoint) (b : String),
        rateLimitDenied p bucketAllows = false →
        readDownStreamRequestBody req = Except.ok b →
        ((ProxyClient.Do p debugLevel bucketAllows services signOracle
            presignOracle transport flagIn req).events.filter isResolveEvent) =
          [Event.resolveHost req.host]) := by
  constructor
  · intro hname hreg
    have hboth : bothOverrides p = true := by
      simp [bothOverrides, Bool.and_eq_true, bne_iff_ne, hname, hreg]
    refine ⟨?_, ?_, ?_⟩
    · intro s₁ s₂
      simp [ProxyClient.Do, hboth]
    · intro services h hmem
      unfold ProxyClient.Do at hmem
      simp only [hboth, if_true] at hmem
      revert hmem
      repeat' split
      all_goals intro hmem
      all_goals simp at hmem
      all_goals try exact mem_sign_events_resolve_eq (by assumption) h hmem
    · intro services s d hmem
      unfold ProxyClient.Do at hmem
      simp only [hboth, if_true] at hmem
      revert hmem
      repeat' split
      all_goals intro hmem
      all_goals simp at hmem
      all_goals try exact mem_sign_events_service_eq (by assumption) s d hmem
  · intro hn services b hden hb
    have hboth : bothOverrides p = false := by
      rcases not_and_or.mp hn with h | h
      · simp [bothOverrides, not_ne_iff.mp h]
      · simp [bothOverrides, not_ne_iff.mp h]
    unfold ProxyClient.Do
    simp only [hden, Bool.false_eq_true, if_false, hb, hboth]
    repeat' split
    all_goals first
    | (simp [isResolveEvent]; done)
    | (simp [isResolveEvent, List.filter_append,
        sign_events_filter_resolve_eq (by assumption)]; done)

/-- A client configured with the complete override pair. -/
def overrideClient : ProxyClient :=
  { plainClient with signingNameOverride := "ec2", regionOverride := "us-west-2" }

/-- C2 witnessed: with the override pair set, swapping the resolver table
does not change the outcome; without overrides, the resolver is consulted
exactly once on the inbound host. -/
theorem c2_override_bypass_witness :
    (ProxyClient.Do overrideClient false (fun _ => true)
        (fun _ => some s3VirtualHostEndpoint) okSignOracle okPresignOracle
        okTransport false sampleRequest =
      ProxyClient.Do overrideClient false (fun _ => true) (fun _ => none)
        okSignOracle okPresignOracle okTransport false sampleRequest) ∧
    ((ProxyClient.Do plainClient false (fun _ => true) (fun _ => none)
        okSignOracle okPresignOracle okTransport false
        badHostRequest).events.filter isResolveEvent =
      [Event.resolveHost badHostRequest.host]) :=
  ⟨((c2_override_bypass overrideClient false (fun _ => true) okSignOracle
        okPresignOracle okTransport false sampleRequest).1
      (by decide) (by decide)).1 _ _,
   (c2_override_bypass plainClient false (fun _ => true) okSignOracle
        okPresignOracle okTransport false badHostRequest).2
      (by decide) _ "" rfl rfl⟩

set_option maxHeartbeats 1000000 in
/-- C3 (amended): every outbound request handed to the transport by Do
carries, for a non-chunked inbound request, the transfer-encoding marker
exactly identity, a non-negative inbound content-length (including zero)
propagated exactly, and, for an unknown (negative) inbound
content-length, the materialized body length instead; for a chunked
inbound request it carries the inbound transfer-encoding markers
unchanged, and its content-length is the materialized body length, so any
stated inbound content-length is ignored entirely. -/
theorem c3_framing_amended (p : ProxyClient) (debugLevel : Bool)
    (bucketAllows : TokenBucket → Bool)
    (services : String → Option ResolvedEndpoint)
    (signOracle : Request → ResolvedEndpoint → Bool → Except String Header)
    (presignOracle : Request → ResolvedEndpoint → Bool → Except String String)
    (transport : Request → Except String Response)
    (flagIn : Bool) (req : Request) (r : Request)
    (hmem : Event.transportCall r ∈
      (ProxyClient.Do p debugLevel bucketAllows services signOracle
        presignOracle transport flagIn req).events) :
    (chunked req.transferEncoding = false →
      r.transferEncoding = ["identity"] ∧
      (0 ≤ req.contentLength → r.contentLength = req.contentLength) ∧
      (req.contentLength < 0 →
        r.contentLength = ((materializedBody req).length : Int))) ∧
    (chunked req.transferEncoding = true →
      r.transferEncoding = req.transferEncoding ∧
      r.contentLength = ((materializedBody req).length : Int)) := by
  unfold ProxyClient.Do at hmem
  repeat' split at hmem
  all_goals simp at hmem
  all_goals try (repeat' split at hmem)
  all_goals try simp at hmem
  all_goals try (exact absurd hmem (mem_sign_events_transport_eq (by assumption) r))
  all_goals try (rcases hmem with hmem | hmem)
  all_goals try (exact absurd hmem (mem_sign_events_transport_eq (by assumption) r))
  all_goals subst hmem
  all_goals have hsf := sign_ok_fields _ _ _ _ _ _ _ _ (by assumption)
  all_goals refine ⟨fun hc => ⟨?_, fun hcl => ?_, fun hcl => ?_⟩,
    fun hc => ⟨?_, ?_⟩⟩
  all_goals simp_all [materializedBody]
  all_goals try (rw [if_neg (not_le.mpr hcl)])

/-- A non-chunked request whose content length is the unknown sentinel,
with a five-byte body. -/
def c3Request : Request :=
  { method := "PUT", url := sampleURL, host := "not.important.host",
    header := [], body := some (Except.ok "hello"), transferEncoding := [],
    contentLength := -1 }

/-- C3 counterexample: for the non-chunked request with unknown
(negative) content-length, the outbound request handed to the transport
carries content-length 5, the materialized body length, not the inbound
value -1: the inbound content-length of a non-chunked request is not
always propagated exactly. -/
theorem c3_framing_counterexample :
    chunked c3Request.transferEncoding = false ∧
    c3Request.contentLength = -1 ∧
    outboundContentLengths
        (ProxyClient.Do overrideClient false (fun _ => true) (fun _ => none)
          okSignOracle okPresignOracle okTransport false c3Request) = [5] ∧
    outboundContentLengths
        (ProxyClient.Do overrideClient false (fun _ => true) (fun _ => none)
          okSignOracle okPresignOracle okTransport false c3Request) ≠
      [c3Request.contentLength] := by
  decide

/-- The outbound request the C3 run hands to the transport. -/
def c3Outbound : Request :=
  { method := "PUT",
    url := { scheme := "https", host := "not.important.host", path := "/",
             rest := "" },
    host := "", header := [], body := some (Except.ok "hello"),
    transferEncoding := ["identity"], contentLength := 5 }

/-- C3 amended, witnessed on the concrete run: the outbound request is
marked identity and carries the materialized body length. -/
theorem c3_framing_amended_witness :
    c3Outbound.transferEncoding = ["identity"] ∧
    c3Outbound.contentLength = ((materializedBody c3Request).length : Int) :=
  ⟨((c3_framing_amended overrideClient false (fun _ => true) (fun _ => none)
        okSignOracle okPresignOracle okTransport false c3Request c3Outbound
        (by decide)).1 (by decide)).1,
   ((c3_framing_amended overrideClient false (fun _ => true) (fun _ => none)
        okSignOracle okPresignOracle okTransport false c3Request c3Outbound
        (by decide)).1 (by decide)).2.2 (by decide)⟩

/-- Discriminator for transport events. -/
def isTransportEvent : Event → Bool
  | Event.transportCall _ => true
  | _ => false

/-- Write-side events observed by the original client of the Response
Relay: header sets, status writes, plain body writes (buffered bodies,
error messages and the streaming diagnostic suffix), streaming chunk
writes carrying whether the client write succeeded, and flushes. -/
inductive WEvent
  | setHeader (k v : String)
  | writeStatus (code : Int)
  | write (data : String)
  | writeChunk (data : String) (ok : Bool)
  | flush
deriving Repr, DecidableEq

/-- Embedding of io.ReadAll over a response body stream: concatenate the
reads, succeed at end of stream, fail on any other read error. -/
def readAllStream : List (String × Option RdErr) → Except String String
  | [] => Except.ok ""
  | (d, none) :: rest =>
    match readAllStream rest with
    | Except.ok tail => Except.ok (d ++ tail)
    | Except.error e => Except.error e
  | (d, some RdErr.eof) :: _ => Except.ok d
  | (_, some (RdErr.fail m)) :: _ => Except.error m

/-- The header-copy loop of ServeHTTP: one setHeader event per value. -/
def headerCopyEvents : Header → List WEvent
  | [] => []
  | (k, vs) :: rest =>
    (vs.map fun v => WEvent.setHeader k v) ++ headerCopyEvents rest

/-- Embedding of the streaming loop of ServeHTTP (handler.go lines
144-166): read up to 32 KiB, write whatever was read even on a
simultaneous read error, return silently on a client write failure, flush
after the write when the client supports it, stop at end of stream, and
write a diagnostic suffix on any other read error. The body is the list
of read results; an exhausted list reads as end of stream. The
writeFails oracle says whether the n-th client write fails. -/
def streamLoop (canFlush : Bool) (writeFails : Nat → Bool) :
    List (String × Option RdErr) → Nat → List WEvent
  | [], _ => []
  | (d, errOpt) :: rest, wc =>
    if 0 < d.length then
      if writeFails wc then [WEvent.writeChunk d false]
      else
        WEvent.writeChunk d true ::
          ((if canFlush then [WEvent.flush] else []) ++
            match errOpt with
            | none => streamLoop canFlush writeFails rest (wc + 1)
            | some RdErr.eof => []
            | some (RdErr.fail m) =>
              [WEvent.write ("error while streaming response from upstream - " ++ m)])
    else
      match errOpt with
      | none => streamLoop canFlush writeFails rest wc
      | some RdErr.eof => []
      | some (RdErr.fail m) =>
        [WEvent.write ("error while streaming response from upstream - " ++ m)]

/-- Embedding of ServeHTTP, streaming relay variant (handler.go lines
101-167): the error branch writes status 502 and the formatted message
and copies no headers; the success branch copies all response headers
first, then buffers when the content length is known, nonnegative and the
response is not chunked (one read of the whole body, one status write,
one body write, no flushes), and otherwise writes the status and streams
with the 32 KiB loop. -/
def serveHTTP (doResult : Except String Response) (canFlush : Bool)
    (writeFails : Nat → Bool) : List WEvent :=
  match doResult with
  | Except.error msg =>
    [WEvent.writeStatus 502,
     WEvent.write ("unable to proxy request - " ++ msg)]
  | Except.ok resp =>
    let hdrEvents := headerCopyEvents resp.header
    let respChunked := chunked resp.transferEncoding
    let shouldStream := respChunked || resp.contentLength < 0
    if !shouldStream then
      match readAllStream resp.body with
      | Except.error e =>
        hdrEvents ++ [WEvent.writeStatus 500,
          WEvent.write ("error while reading response from upstream - " ++ e)]
      | Except.ok data =>
        hdrEvents ++ [WEvent.writeStatus resp.statusCode, WEvent.write data]
    else
      hdrEvents ++ [WEvent.writeStatus resp.statusCode] ++
        streamLoop canFlush writeFails resp.body 0

/-- C7: when the orchestrator fails, the relay writes status 502 and a
body of exactly the form described, and copies no upstream header. -/
theorem c7_error_branch (msg : String) (canFlush : Bool)
    (writeFails : Nat → Bool) :
    serveHTTP (Except.error msg) canFlush writeFails =
      [WEvent.writeStatus 502,
       WEvent.write ("unable to proxy request - " ++ msg)] ∧
    ∀ k v, WEvent.setHeader k v ∉ serveHTTP (Except.error msg) canFlush writeFails := by
  refine ⟨rfl, ?_⟩
  intro k v h
  simp [serveHTTP] at h

/-- Embedding of the ServeHTTP variant with the health check
(handler.go lines 36-66): the orchestrator is invoked first, then a
/health path returns 200 with no body regardless of the outcome;
otherwise the error branch writes 502 with the formatted message, and the
success branch reads the whole body (502 and 500 error texts as in that
variant), copies headers and does one status and one body write. Returns
the writer events together with the orchestrator trace the invocation
caused. -/
def serveHTTPHealth (doFn : Request → DoOutcome) (req : Request) :
    List WEvent × List Event :=
  let o := doFn req
  if req.url.path == "/health" then
    ([WEvent.writeStatus 200], o.events)
  else
    match o.result with
    | Except.error msg =>
      ([WEvent.writeStatus 502,
        WEvent.write ("unable to proxy request - " ++ msg)], o.events)
    | Except.ok resp =>
      match readAllStream resp.body with
      | Except.error e =>
        ([WEvent.writeStatus 500,
          WEvent.write ("error while reading response from upstream - " ++ e)],
         o.events)
      | Except.ok data =>
        (headerCopyEvents resp.header ++
          [WEvent.writeStatus resp.statusCode, WEvent.write data], o.events)

/-- A request to the health path whose host would resolve through the
override pair. -/
def healthRequest : Request :=
  { method := "GET",
    url := { scheme := "https", host := "example.com", path := "/health",
             rest := "" },
    host := "example.com", header := [], body := none, transferEncoding := [],
    contentLength := 0 }

/-- The full orchestrator wired into the handler for the C9 run. -/
def c9DoFn : Request → DoOutcome :=
  fun r =>
    ProxyClient.Do overrideClient false (fun _ => true) (fun _ => none)
      okSignOracle okPresignOracle okTransport false r

/-- C9 counterexample: for a concrete /health request the handler does
answer 200 with no body, but the orchestrator pipeline has already run:
its trace contains a transport call, so the health path does not bypass
the pipeline. -/
theorem c9_health_counterexample :
    healthRequest.url.path = "/health" ∧
    (serveHTTPHealth c9DoFn healthRequest).1 = [WEvent.writeStatus 200] ∧
    (serveHTTPHealth c9DoFn healthRequest).2.any isTransportEvent = true := by
  decide

/-- C9 (amended): for every /health request the handler responds 200
with no body, but only after invoking the orchestrator: the pipeline's
side effects still occur and its result is discarded. -/
theorem c9_health_amended (doFn : Request → DoOutcome) (req : Request)
    (h : req.url.path = "/health") :
    (serveHTTPHealth doFn req).1 = [WEvent.writeStatus 200] ∧
    (serveHTTPHealth doFn req).2 = (doFn req).events := by
  simp [serveHTTPHealth, h]

/-- C9 amended, witnessed on the concrete /health run. -/
theorem c9_health_amended_witness :
    (serveHTTPHealth c9DoFn healthRequest).1 = [WEvent.writeStatus 200] ∧
    (serveHTTPHealth c9DoFn healthRequest).2 = (c9DoFn healthRequest).events :=
  c9_health_amended c9DoFn healthRequest rfl

/-- Discriminator for status writes. -/
def isStatusWrite : WEvent → Bool
  | WEvent.writeStatus _ => true
  | _ => false

/-- Discriminator for body writes of either kind. -/
def isBodyWrite : WEvent → Bool
  | WEvent.write _ => true
  | WEvent.writeChunk _ _ => true
  | _ => false

/-- Discriminator for flushes. -/
def isFlush : WEvent → Bool
  | WEvent.flush => true
  | _ => false

/-- Sequential checker of the streaming write/flush discipline. The
state says whether a flush is due right now: it becomes due immediately
after a successful nonempty chunk write when the client supports
flushing, and a flush is legal exactly when due, so every flush
immediately follows a successful nonempty chunk write, every such write
is flushed at once, no flush happens without flush support, empty reads
(which produce no events) are never flushed, chunk writes carry between 1
and 32 KiB, and nothing follows a failed chunk write. -/
def streamChecker (canFlush : Bool) : List WEvent → Bool → Bool
  | [], due => !due
  | e :: rest, true =>
    match e with
    | WEvent.flush => streamChecker canFlush rest false
    | _ => false
  | e :: rest, false =>
    match e with
    | WEvent.flush => false
    | WEvent.writeChunk d ok =>
      decide (0 < d.length) && decide (d.length ≤ 32 * 1024) &&
        (if ok then streamChecker canFlush rest canFlush else rest.isEmpty)
    | _ => streamChecker canFlush rest false

/-- The streaming discipline over a whole event list. -/
def streamEventsOk (canFlush : Bool) (l : List WEvent) : Bool :=
  streamChecker canFlush l false

/-- A run of header-copy events is neutral for the checker. -/
theorem streamChecker_setHeaders (c : Bool) (k : String) (vs : List String)
    (l : List WEvent) :
    streamChecker c ((vs.map fun v => WEvent.setHeader k v) ++ l) false =
      streamChecker c l false := by
  induction vs with
  | nil => rfl
  | cons v vs ih => simpa [streamChecker] using ih

/-- Copying a whole header map is neutral for the checker. -/
theorem streamChecker_headerCopy (c : Bool) (h : Header) (l : List WEvent) :
    streamChecker c (headerCopyEvents h ++ l) false = streamChecker c l false := by
  induction h with
  | nil => rfl
  | cons kv rest ih =>
    obtain ⟨k, vs⟩ := kv
    rw [headerCopyEvents, List.append_assoc, streamChecker_setHeaders]
    exact ih

/-- The flush segment emitted after a successful chunk write hands the
checker back in the not-due state. -/
theorem streamChecker_flush_seg (c : Bool) (tail : List WEvent) :
    streamChecker c ((if c then [WEvent.flush] else []) ++ tail) c =
      streamChecker c tail false := by
  cases c <;> rfl

/-- The streaming loop always satisfies the streaming discipline, for
any body whose reads stay within the 32 KiB buffer. -/
theorem streamChecker_chunk_ok (c : Bool) (d : String) (tail : List WEvent)
    (h0 : 0 < d.length) (h32 : d.length ≤ 32 * 1024) :
    streamChecker c
        (WEvent.writeChunk d true ::
          ((if c then [WEvent.flush] else []) ++ tail)) false =
      streamChecker c tail false := by
  cases c
  · simp [streamChecker, h0, h32]
  · simp [streamChecker, h0, h32]

/-- The streaming loop always satisfies the streaming discipline, for
any body whose reads stay within the 32 KiB buffer. -/
theorem streamLoop_checker (canFlush : Bool) (writeFails : Nat → Bool) :
    ∀ (body : List (String × Option RdErr)) (wc : Nat),
      (∀ q ∈ body, (q.1 : String).length ≤ 32 * 1024) →
      streamChecker canFlush (streamLoop canFlush writeFails body wc) false = true := by
  intro body
  induction body with
  | nil => intro wc _; rfl
  | cons hd rest ih =>
    intro wc hwf
    obtain ⟨d, errOpt⟩ := hd
    have hdlen : d.length ≤ 32 * 1024 := hwf (d, errOpt) (List.mem_cons_self _ _)
    have hwfrest : ∀ q ∈ rest, (q.1 : String).length ≤ 32 * 1024 :=
      fun q hq => hwf q (List.mem_cons_of_mem _ hq)
    unfold streamLoop
    cases errOpt with
    | none =>
      by_cases hd0 : 0 < d.length
      · by_cases hwfail : writeFails wc
        · simp [hd0, hwfail, streamChecker, hdlen]
        · rw [if_pos hd0, if_neg hwfail,
            streamChecker_chunk_ok canFlush d _ hd0 hdlen]
          exact ih (wc + 1) hwfrest
      · rw [if_neg hd0]
        exact ih wc hwfrest
    | some e =>
      cases e with
      | eof =>
        by_cases hd0 : 0 < d.length
        · by_cases hwfail : writeFails wc
          · simp [hd0, hwfail, streamChecker, hdlen]
          · rw [if_pos hd0, if_neg hwfail,
              streamChecker_chunk_ok canFlush d _ hd0 hdlen]
            rfl
        · rw [if_neg hd0]
          rfl
      | fail m =>
        by_cases hd0 : 0 < d.length
        · by_cases hwfail : writeFails wc
          · simp [hd0, hwfail, streamChecker, hdlen]
          · rw [if_pos hd0, if_neg hwfail,
              streamChecker_chunk_ok canFlush d _ hd0 hdlen]
            rfl
        · rw [if_neg hd0]
          rfl

/-- Header-copy events count zero under any predicate that ignores
header sets. -/
theorem headerCopyEvents_countP (h : Header) (p : WEvent → Bool)
    (hp : ∀ k v, p (WEvent.setHeader k v) = false) :
    (headerCopyEvents h).countP p = 0 := by
  induction h with
  | nil => rfl
  | cons kv rest ih =>
    obtain ⟨k, vs⟩ := kv
    rw [headerCopyEvents, List.countP_append, ih, List.countP_map]
    simp only [Nat.add_zero]
    rw [List.countP_eq_zero]
    intro v hv
    simp [Function.comp, hp]

/-- A status write is neutral for the checker. -/
theorem streamChecker_status (c : Bool) (code : Int) (l : List WEvent) :
    streamChecker c (WEvent.writeStatus code :: l) false =
      streamChecker c l false := rfl

set_option maxHeartbeats 1000000 in
/-- C8: for every successful upstream response, when the content length
is known (nonnegative) and the response is not chunked, the relay makes
exactly one status write and one body write with zero flush calls;
otherwise it streams: chunk writes are nonempty and at most 32 KiB,
every successful chunk write is immediately followed by a flush when the
client supports flushing and no flush happens otherwise (in particular
never on an empty read, which emits nothing), and a client write failure
terminates the loop with no further write of any kind. -/
theorem c8_relay_delivery (resp : Response) (canFlush : Bool)
    (writeFails : Nat → Bool)
    (hwf : ∀ q ∈ resp.body, (q.1 : String).length ≤ 32 * 1024) :
    (0 ≤ resp.contentLength → chunked resp.transferEncoding = false →
      (serveHTTP (Except.ok resp) canFlush writeFails).countP isStatusWrite = 1 ∧
      (serveHTTP (Except.ok resp) canFlush writeFails).countP isBodyWrite = 1 ∧
      (serveHTTP (Except.ok resp) canFlush writeFails).countP isFlush = 0) ∧
    (chunked resp.transferEncoding = true ∨ resp.contentLength < 0 →
      streamEventsOk canFlush (serveHTTP (Except.ok resp) canFlush writeFails) = true) := by
  constructor
  · intro hcl hc
    have hss : (chunked resp.transferEncoding ||
        decide (resp.contentLength < 0)) = false := by
      simp [hc]
      omega
    unfold serveHTTP
    simp only [hss, Bool.not_false, if_true]
    split
    all_goals refine ⟨?_, ?_, ?_⟩
    all_goals rw [List.countP_append,
      headerCopyEvents_countP _ _ (fun k v => rfl)]
    all_goals rfl
  · intro hstream
    have hss : (chunked resp.transferEncoding ||
        decide (resp.contentLength < 0)) = true := by
      rcases hstream with h | h
      · simp [h]
      · simp [h]
    unfold serveHTTP streamEventsOk
    simp only [hss, Bool.not_true, Bool.false_eq_true, if_false]
    rw [List.append_assoc, streamChecker_headerCopy, List.singleton_append,
      streamChecker_status]
    exact streamLoop_checker canFlush writeFails resp.body 0 hwf

/-- A fixed-length, non-chunked upstream response. -/
def c8BufferedResponse : Response :=
  { statusCode := 200, header := [("Content-Type", ["text/plain"])],
    transferEncoding := [], contentLength := 3,
    body := [("abc", some RdErr.eof)] }

/-- A chunked upstream response delivered in two reads. -/
def c8StreamResponse : Response :=
  { statusCode := 200, header := [("Content-Type", ["text/event-stream"])],
    transferEncoding := ["chunked"], contentLength := -1,
    body := [("hi", none), ("yo", some RdErr.eof)] }

/-- C8 witnessed: the buffered response gets one status write, one body
write and zero flushes; the chunked response satisfies the streaming
discipline. -/
theorem c8_relay_delivery_witness :
    ((serveHTTP (Except.ok c8BufferedResponse) true (fun _ => false)).countP
        isStatusWrite = 1 ∧
     (serveHTTP (Except.ok c8BufferedResponse) true (fun _ => false)).countP
        isBodyWrite = 1 ∧
     (serveHTTP (Except.ok c8BufferedResponse) true (fun _ => false)).countP
        isFlush = 0) ∧
    streamEventsOk true
      (serveHTTP (Except.ok c8StreamResponse) true (fun _ => false)) = true :=
  ⟨(c8_relay_delivery c8BufferedResponse true (fun _ => false)
      (by decide)).1 (by decide) (by decide),
   (c8_relay_delivery c8StreamResponse true (fun _ => false)
      (by decide)).2 (Or.inl (by decide))⟩

end AwsSigV4Proxy
